import Mathlib

/-!
# Timeline Task Management — verification of the sync protocol and coordinate engine

Shallow embedding of the TimeManagement repository (`backend/server.js` and
`backend/public/app.js`).  JavaScript numbers are modelled as rationals (`ℚ`);
possibly-`undefined` string fields are modelled as `Option String` where
`none` is `undefined`; JS truthiness on such a field is `none` and the empty
string being falsy.  Wire-level timestamps (ISO strings or numbers) are
modelled by the instant they denote, and `new Date(x)` wraps that instant in
a distinguished `Date` constructor, so that "is a `Date` value" is a stated
property of the embedding.
-/

namespace Timeline

/-- JS truthiness of a possibly-undefined string: `undefined` and `""` are falsy. -/
def truthyStr : Option String → Bool
  | none => false
  | some s => s ≠ ""

/-- JS `a || b` on possibly-undefined strings. -/
def jsOr (a b : Option String) : Option String :=
  if truthyStr a then a else b

/-- A JS value holding a point in time: either a wire value (ISO string or
number, modelled by the instant it denotes, in ms) or a `Date` object. -/
inductive TimeVal where
  | raw (ms : ℚ)
  | date (ms : ℚ)
  deriving DecidableEq, Repr

/-- The instant a `TimeVal` denotes (`Date.prototype.getTime` / date cast). -/
def TimeVal.ms : TimeVal → ℚ
  | .raw t => t
  | .date t => t

/-- JS `new Date(x)`: wrap the instant in a `Date` object. -/
def newDate (v : TimeVal) : TimeVal := .date v.ms

/-- Whether the value is a `Date` object. -/
def TimeVal.isDate : TimeVal → Bool
  | .raw _ => false
  | .date _ => true

/-- A task record as it travels over the API and broadcast channels and as it
is held in the client cache (one JS object shape; absent fields are `none`). -/
structure RawTask where
  _id : Option String
  id : Option String
  tempId : Option String
  title : String
  startTime : TimeVal
  duration : ℚ
  color : String
  status : String
  deriving DecidableEq, Repr

/-- `TimelineTaskManager.normalizeTask` (app.js):
`{...task, id: task._id || task.id, _id: task._id || task.id,
  startTime: new Date(task.startTime), duration: Number(task.duration)}`.
`Number` on an already-numeric duration is the identity. -/
def normalizeTask (task : RawTask) : RawTask :=
  { task with
    id := jsOr task._id task.id
    _id := jsOr task._id task.id
    startTime := newDate task.startTime
    duration := task.duration }

/-- The mutable state of `TimelineTaskManager` (app.js) that the sync
protocol touches, together with `APIService.pendingCreations`. -/
structure ManagerState where
  tasks : List RawTask
  selectedTask : Option RawTask
  pendingCreations : List String
  currentTime : ℚ
  timelineOffset : ℚ
  zoomLevel : ℚ
  pixelsPerHour : ℚ
  deriving DecidableEq, Repr

/-- `TimelineTaskManager.handleTaskCreated`: push the normalized task if no
cached task has the same `_id`. -/
def handleTaskCreated (s : ManagerState) (task : RawTask) : ManagerState :=
  match s.tasks.findIdx? (fun t => t._id == task._id) with
  | none => { s with tasks := s.tasks ++ [normalizeTask task] }
  | some _ => s

/-- `TimelineTaskManager.handleTaskUpdated`: replace the first cached task
with the same `_id` by the normalized record; do nothing if none matches. -/
def handleTaskUpdated (s : ManagerState) (task : RawTask) : ManagerState :=
  match s.tasks.findIdx? (fun t => t._id == task._id) with
  | none => s
  | some i => { s with tasks := s.tasks.set i (normalizeTask task) }

/-- `TimelineTaskManager.handleTaskDeleted`: splice out the first cached task
whose `_id` equals the payload's `id`; inside that branch, clear the
selection when the selected task carried that `_id`. -/
def handleTaskDeleted (s : ManagerState) (id : String) : ManagerState :=
  match s.tasks.findIdx? (fun t => t._id == some id) with
  | none => s
  | some i =>
    { s with
      tasks := s.tasks.eraseIdx i
      selectedTask :=
        match s.selectedTask with
        | some sel => if sel._id == some id then none else some sel
        | none => none }

/-- `TimelineTaskManager.handleTimeUpdate`: adopt the server's clock. -/
def handleTimeUpdate (s : ManagerState) (currentTime : ℚ) : ManagerState :=
  { s with currentTime := currentTime }

/-- A websocket push message (`server.js` broadcast / tick kinds). -/
inductive WsMessage where
  | taskCreated (payload : RawTask)
  | taskUpdated (payload : RawTask)
  | taskDeleted (id : String)
  | timeUpdate (currentTime : ℚ)
  | timelineSynced
  deriving DecidableEq, Repr

/-- `TimelineTaskManager.handleWebSocketMessage`: dispatch on the message
type; for `task:created`, if the payload carries a truthy `tempId` that is a
pending creation, delete the token and return without touching the cache. -/
def handleWebSocketMessage (s : ManagerState) (m : WsMessage) : ManagerState :=
  match m with
  | .taskCreated p =>
    if truthyStr p.tempId &&
        (match p.tempId with
         | some tid => s.pendingCreations.contains tid
         | none => false) then
      { s with
        pendingCreations :=
          match p.tempId with
          | some tid => s.pendingCreations.filter (fun x => x ≠ tid)
          | none => s.pendingCreations }
    else
      handleTaskCreated s p
  | .taskUpdated p => handleTaskUpdated s p
  | .taskDeleted id => handleTaskDeleted s id
  | .timeUpdate t => handleTimeUpdate s t
  | .timelineSynced => s

/-- `TimelineTaskManager.loadTasksFromAPI` on a successful fetch:
`this.tasks = tasks.map(task => this.normalizeTask(task))`. -/
def loadTasksFromAPI (s : ManagerState) (fetched : List RawTask) : ManagerState :=
  { s with tasks := fetched.map normalizeTask }

/-- Create branch of `TimelineTaskManager.saveTaskToAPI`: push the normalized
response unless a cached task already has its `_id`. -/
def saveTaskToAPICreate (s : ManagerState) (newTask : RawTask) : ManagerState :=
  match s.tasks.find? (fun t => t._id == newTask._id) with
  | some _ => s
  | none => { s with tasks := s.tasks ++ [normalizeTask newTask] }

/-- Update branch of `TimelineTaskManager.saveTaskToAPI`: overwrite the first
cached task whose `_id` is the edited task's `_id` with the normalized
response. -/
def saveTaskToAPIUpdate (s : ManagerState) (editingId : Option String)
    (updatedTask : RawTask) : ManagerState :=
  match s.tasks.findIdx? (fun t => t._id == editingId) with
  | none => s
  | some i => { s with tasks := s.tasks.set i (normalizeTask updatedTask) }

/-- `TimelineTaskManager.timeToX` (app.js, pure coordinate mapping). -/
def timeToX (s : ManagerState) (timestamp containerWidth : ℚ) : ℚ :=
  let centerTime := s.currentTime + s.timelineOffset
  let timeDiff := timestamp - centerTime
  let pixelsPerHour := s.pixelsPerHour * s.zoomLevel
  containerWidth / 2 + timeDiff / 3600000 * pixelsPerHour

/-- `TimelineTaskManager.xToTime` (app.js, pure coordinate mapping). -/
def xToTime (s : ManagerState) (x containerWidth : ℚ) : ℚ :=
  let centerTime := s.currentTime + s.timelineOffset
  let pixelsPerHour := s.pixelsPerHour * s.zoomLevel
  let timeDiff := (x - containerWidth / 2) / pixelsPerHour * 3600000
  centerTime + timeDiff

/-- `TimelineTaskManager.zoomIn`: `zoomLevel = Math.min(zoomLevel * 1.5, 5)`. -/
def zoomIn (s : ManagerState) : ManagerState :=
  { s with zoomLevel := min (s.zoomLevel * 1.5) 5 }

/-- `TimelineTaskManager.zoomOut`: `zoomLevel = Math.max(zoomLevel / 1.5, 0.2)`. -/
def zoomOut (s : ManagerState) : ManagerState :=
  { s with zoomLevel := max (s.zoomLevel / 1.5) 0.2 }

/-- `TimelineTaskManager.jumpToCurrentTime`: `timelineOffset = 0`. -/
def jumpToCurrentTime (s : ManagerState) : ManagerState :=
  { s with timelineOffset := 0 }

/-- Client-side validation outcome of `TimelineTaskManager.saveTask`. -/
inductive SaveCheck where
  | ok
  | errTitle
  | errStartTime
  | errDuration
  deriving DecidableEq, Repr

/-- The validation block of `TimelineTaskManager.saveTask` (app.js): rejects
an empty (trimmed) title, an invalid start time, and a missing (`NaN`) or
below-15 duration, in that order.  `duration = none` models
`parseInt` returning `NaN`. -/
def saveTaskValidate (title : String) (startTimeValid : Bool)
    (duration : Option ℚ) : SaveCheck :=
  if title = "" then .errTitle
  else if ¬startTimeValid then .errStartTime
  else
    match duration with
    | none => .errDuration
    | some d => if d < 15 then .errDuration else .ok

/-- The client-side state of `WebSocketService` (app.js) that the
reconnection policy reads and writes. -/
structure WebSocketService where
  reconnectAttempts : ℕ
  maxReconnectAttempts : ℕ
  reconnectDelay : ℕ
  isConnected : Bool
  deriving DecidableEq, Repr

/-- `WebSocketService` constructor field initialisation. -/
def WebSocketService.init : WebSocketService :=
  { reconnectAttempts := 0
    maxReconnectAttempts := 5
    reconnectDelay := 1000
    isConnected := false }

/-- `WebSocketService.attemptReconnect`: below the cap, increment the
counter and schedule a reconnect after `reconnectDelay * reconnectAttempts`
milliseconds (returned as `some delay`); at the cap, schedule nothing. -/
def attemptReconnect (s : WebSocketService) : Option ℕ × WebSocketService :=
  if s.reconnectAttempts < s.maxReconnectAttempts then
    let s1 := { s with reconnectAttempts := s.reconnectAttempts + 1 }
    (some (s.reconnectDelay * s1.reconnectAttempts), s1)
  else
    (none, s)

/-- `socket.onopen`: mark connected and reset the attempt counter. -/
def wsOnOpen (s : WebSocketService) : WebSocketService :=
  { s with isConnected := true, reconnectAttempts := 0 }

/-- `socket.onclose`: mark disconnected, then call `attemptReconnect`. -/
def wsOnClose (s : WebSocketService) : Option ℕ × WebSocketService :=
  attemptReconnect { s with isConnected := false }

/-!
## Server (`backend/server.js`)
-/

/-- A request body for `POST /api/tasks` (fields absent in the JSON body are
`none`). -/
structure TaskBody where
  tempId : Option String
  title : Option String
  startTime : Option TimeVal
  duration : Option ℚ
  color : Option String
  status : Option String
  deriving DecidableEq, Repr

/-- Status strings admitted by the `status` enum of `taskSchema`. -/
def validStatus : String → Bool
  | "pending" => true
  | "in-progress" => true
  | "completed" => true
  | _ => false

/-- Outcome of saving a new `Task` document under `taskSchema`. -/
inductive CreateResult where
  | ok (task : RawTask)
  | validationError (field : String)
  deriving DecidableEq, Repr

/-- Mongoose validation of `new Task(taskData).save()` under `taskSchema`
(server.js): `title` required (a missing or empty string fails the String
required check), `startTime` required and a valid instant, `duration`
required (note: the schema imposes **no minimum** on `duration`), `status`
drawn from its enum with default `pending`, `color` defaulted.  On success
the store assigns `_id := newId`. -/
def validateCreate (body : TaskBody) (newId : String) : CreateResult :=
  match body.title with
  | none => .validationError "title"
  | some title =>
    if title = "" then .validationError "title"
    else
      match body.startTime with
      | none => .validationError "startTime"
      | some st =>
        match body.duration with
        | none => .validationError "duration"
        | some d =>
          let status := body.status.getD "pending"
          if ¬validStatus status then .validationError "status"
          else
            .ok
              { _id := some newId
                id := none
                tempId := none
                title := title
                startTime := newDate st
                duration := d
                color := body.color.getD "#3B82F6"
                status := status }

/-- A message published through `broadcast(type, data)` (server.js). -/
inductive Broadcast where
  | created (payload : RawTask)
  | updated (payload : RawTask)
  | deleted (id : String)
  deriving DecidableEq, Repr

/-- Handler for `POST /api/tasks` (server.js): destructure `tempId` away from
the body, save the document, echo a truthy `tempId` back on the broadcast
payload only, publish exactly one `task:created`, answer `201` with the saved
record; on validation failure answer `400` and publish nothing.
Returns `(HTTP status, response record if created, published broadcasts)`. -/
def postTasks (body : TaskBody) (newId : String) :
    ℕ × Option RawTask × List Broadcast :=
  match validateCreate { body with tempId := none } newId with
  | .ok task =>
    let taskResponse :=
      if truthyStr body.tempId then { task with tempId := body.tempId } else task
    (201, some task, [Broadcast.created taskResponse])
  | .validationError _ => (400, none, [])

/-- A request body for `PUT /api/tasks/:id`: a partial update. -/
structure UpdateBody where
  title : Option String
  startTime : Option TimeVal
  duration : Option ℚ
  color : Option String
  status : Option String
  deriving DecidableEq, Repr

/-- The document produced by applying a partial update to a stored task
(`findByIdAndUpdate`: only supplied paths change). -/
def applyUpdate (t : RawTask) (b : UpdateBody) : RawTask :=
  { t with
    title := b.title.getD t.title
    startTime := (b.startTime.map newDate).getD t.startTime
    duration := b.duration.getD t.duration
    color := b.color.getD t.color
    status := b.status.getD t.status }

/-- Re-validation of an updated document (`runValidators: true`): the
required `title` must still be non-empty and `status` in its enum. -/
def validUpdated (t : RawTask) : Bool :=
  t.title ≠ "" && validStatus t.status

/-- Handler for `PUT /api/tasks/:id` (server.js): `404` and no broadcast when
no document carries the `_id`; `400` and no broadcast when the updated
document fails validation; otherwise replace the document (MongoDB `_id` is a
unique key), publish exactly one `task:updated` carrying the updated record,
and answer `200`. -/
def putTasks (db : List RawTask) (id : String) (body : UpdateBody) :
    ℕ × List RawTask × List Broadcast :=
  match db.find? (fun t => t._id == some id) with
  | none => (404, db, [])
  | some t0 =>
    let t1 := applyUpdate t0 body
    if validUpdated t1 then
      (200, db.map (fun t => if t._id == some id then t1 else t),
        [Broadcast.updated t1])
    else
      (400, db, [])

/-- Handler for `DELETE /api/tasks/:id` (server.js): `404` and no broadcast
when no document carries the `_id`; otherwise remove it and publish exactly
one `task:deleted` carrying the `id` only. -/
def deleteTasks (db : List RawTask) (id : String) :
    ℕ × List RawTask × List Broadcast :=
  match db.find? (fun t => t._id == some id) with
  | none => (404, db, [])
  | some _ =>
    (200, db.filter (fun t => ¬(t._id == some id)), [Broadcast.deleted id])

/-!
## Invariant predicates and concrete states used in the statements
-/

/-- A cache entry in the shape `normalizeTask` establishes: `_id` exists
(is truthy), `id` equals `_id`, and `startTime` is a `Date` object.
(`duration` being numeric is carried by the `ℚ` type of the field.) -/
def normalizedEntry (t : RawTask) : Prop :=
  truthyStr t._id = true ∧ t.id = t._id ∧ t.startTime.isDate = true

/-- A record as delivered by the server carries an identifier: `_id` or `id`
is truthy. -/
def hasId (t : RawTask) : Prop :=
  truthyStr t._id = true ∨ truthyStr t.id = true

/-- Every task record carried by a websocket message has an identifier. -/
def wsRecordsHaveId : WsMessage → Prop
  | .taskCreated p => hasId p
  | .taskUpdated p => hasId p
  | .taskDeleted _ => True
  | .timeUpdate _ => True
  | .timelineSynced => True

/-- A concrete server task record used in witnesses. -/
def exTask : RawTask :=
  { _id := some "a1", id := none, tempId := none, title := "Standup",
    startTime := TimeVal.raw 1735722000000, duration := 30,
    color := "#3B82F6", status := "pending" }

/-- A second concrete record, with a different `_id`. -/
def exTask2 : RawTask :=
  { _id := some "b2", id := none, tempId := none, title := "Review",
    startTime := TimeVal.raw 1735725600000, duration := 45,
    color := "#3B82F6", status := "completed" }

/-- A concrete manager state with an empty cache. -/
def exEmptyState : ManagerState :=
  { tasks := [], selectedTask := none, pendingCreations := [],
    currentTime := 0, timelineOffset := 0, zoomLevel := 1,
    pixelsPerHour := 120 }

/-- A concrete manager state whose cache holds the normalized `exTask`,
which is also selected. -/
def exStateWithTask : ManagerState :=
  { exEmptyState with
    tasks := [normalizeTask exTask]
    selectedTask := some (normalizeTask exTask) }

/-- The broadcast payload of `exTask` as echoed to its creator: the saved
record together with the originating `tempId`. -/
def exEchoPayload : RawTask :=
  { exTask with tempId := some "temp-1-echo" }

/-- A concrete manager state with the creation of `exTask` still pending. -/
def exPendingState : ManagerState :=
  { exEmptyState with pendingCreations := ["temp-1-echo"] }

/-- A concrete `POST /api/tasks` body with duration 10 (below 15). -/
def exBodyDur10 : TaskBody :=
  { tempId := none, title := some "X", startTime := some (TimeVal.raw 0),
    duration := some 10, color := none, status := none }

/-- A concrete `POST /api/tasks` body with duration 15. -/
def exBodyDur15 : TaskBody :=
  { tempId := some "temp-7", title := some "X",
    startTime := some (TimeVal.raw 0), duration := some 15, color := none,
    status := none }

/-- The stored record `exBodyDur10` produces under `taskSchema`. -/
def exRecDur10 : RawTask :=
  { _id := some "i1", id := none, tempId := none, title := "X",
    startTime := TimeVal.date 0, duration := 10, color := "#3B82F6",
    status := "pending" }

/-- The stored record `exBodyDur15` produces under `taskSchema`. -/
def exRecDur15 : RawTask :=
  { _id := some "i2", id := none, tempId := none, title := "X",
    startTime := TimeVal.date 0, duration := 15, color := "#3B82F6",
    status := "pending" }

/-- A concrete partial update body setting only the status. -/
def exUpdateBody : UpdateBody :=
  { title := none, startTime := none, duration := none, color := none,
    status := some "completed" }

/-- A concrete partial update body blanking the title (fails revalidation). -/
def exBadUpdateBody : UpdateBody :=
  { title := some "", startTime := none, duration := none, color := none,
    status := none }

/-!
## Helper lemmas
-/

theorem findIdx?_set_of_pred {α : Type} {l : List α} {p : α → Bool} {i : ℕ}
    {v : α} (h : l.findIdx? p = some i) (hv : p v = true) :
    (l.set i v).findIdx? p = some i := by
  rw [List.findIdx?_eq_some_iff_getElem] at h ⊢
  obtain ⟨hlen, hpi, hmin⟩ := h
  refine ⟨by simpa using hlen, ?_, ?_⟩
  · simpa [List.getElem_set_self] using hv
  · intro j hj
    rw [List.getElem_set_ne (by omega)]
    exact hmin j hj

theorem not_pred_of_mem_eraseIdx_findIdx {α : Type} {l : List α}
    {p : α → Bool} {i : ℕ} (hc : l.countP p ≤ 1)
    (h : l.findIdx? p = some i) :
    ∀ x ∈ l.eraseIdx i, p x = false := by
  induction l generalizing i with
  | nil => simp at h
  | cons a l ih =>
    rw [List.findIdx?_cons] at h
    by_cases hpa : p a
    · simp only [hpa, if_true, Option.some.injEq] at h
      subst h
      rw [List.countP_cons_of_pos _ _ hpa] at hc
      have hzero : l.countP p = 0 := by omega
      rw [List.countP_eq_zero] at hzero
      intro x hx
      simpa using hzero x (by simpa using hx)
    · simp only [hpa, if_false] at h
      rw [show (1 : ℕ) = 0 + 1 from rfl, List.findIdx?_succ] at h
      obtain ⟨i0, h0, rfl⟩ := Option.map_eq_some'.mp h
      rw [List.countP_cons_of_neg _ _ hpa] at hc
      intro x hx
      rw [List.eraseIdx_cons_succ] at hx
      rcases List.mem_cons.mp hx with rfl | hx'
      · simpa using hpa
      · exact ih hc h0 x hx'

theorem normalizedEntry_normalizeTask {p : RawTask} (hp : hasId p) :
    normalizedEntry (normalizeTask p) := by
  refine ⟨?_, rfl, rfl⟩
  unfold normalizeTask jsOr
  rcases hp with h | h
  · simp [h]
  · by_cases h1 : truthyStr p._id <;> simp [h1, h]

/-!
## Claim theorems
-/

/-- C1.  Echo suppression for creation: when the client holds a pending
`tempId` `tok` and a `task:created` broadcast arrives whose payload carries
that same `tempId`, `handleWebSocketMessage` leaves the task cache unchanged
(so no duplicate entry is added beyond the one the direct create response
inserted) and retires the token from `pendingCreations`. -/
theorem created_echo_suppressed (s : ManagerState) (p : RawTask)
    (tok : String) (hp : p.tempId = some tok) (hne : tok ≠ "")
    (hmem : tok ∈ s.pendingCreations) :
    (handleWebSocketMessage s (.taskCreated p)).tasks = s.tasks ∧
      tok ∉ (handleWebSocketMessage s (.taskCreated p)).pendingCreations := by
  have hcond : s.pendingCreations.contains tok = true := by
    simpa [List.contains] using List.elem_eq_true_of_mem hmem
  constructor
  · simp [handleWebSocketMessage, hp, truthyStr, hne, hcond, hmem]
  · simp [handleWebSocketMessage, hp, truthyStr, hne, hcond, hmem,
      List.mem_filter]

/-- Witness for `created_echo_suppressed` at a concrete pending state: the
cache stays empty and the token list is emptied. -/
theorem created_echo_suppressed_witness :
    (handleWebSocketMessage exPendingState
        (.taskCreated exEchoPayload)).tasks = [] ∧
      (handleWebSocketMessage exPendingState
          (.taskCreated exEchoPayload)).pendingCreations = [] := by
  have h := created_echo_suppressed exPendingState exEchoPayload
    "temp-1-echo" rfl (by decide) (by decide)
  exact ⟨h.1.trans rfl, by decide⟩

/-- C2.  Coordinate round-trip: for every valid configuration
(`zoomLevel` clamped to `[0.2, 5]`, `pixelsPerHour = 120`) and every
timestamp `t`, `xToTime (timeToX t)` returns `t` exactly; in this
real-valued (rational) model of JS numbers the two maps are exact algebraic
inverses. -/
theorem timeToX_xToTime_roundtrip (s : ManagerState) (t containerWidth : ℚ)
    (h1 : 0.2 ≤ s.zoomLevel) (h2 : s.zoomLevel ≤ 5)
    (hp : s.pixelsPerHour = 120) :
    xToTime s (timeToX s t containerWidth) containerWidth = t := by
  have hz : s.zoomLevel ≠ 0 := by
    have h0 : (0 : ℚ) < 0.2 := by norm_num
    exact ne_of_gt (lt_of_lt_of_le h0 h1)
  have hpz : s.pixelsPerHour * s.zoomLevel ≠ 0 := by
    rw [hp]
    exact mul_ne_zero (by norm_num) hz
  unfold xToTime timeToX
  field_simp
  ring

/-- Witness for `timeToX_xToTime_roundtrip` at a concrete configuration. -/
theorem timeToX_xToTime_roundtrip_witness :
    xToTime exEmptyState (timeToX exEmptyState 7 800) 800 = 7 :=
  timeToX_xToTime_roundtrip exEmptyState 7 800 (by norm_num [exEmptyState])
    (by norm_num [exEmptyState]) rfl

/-- C4 counterexample: an `updated` broadcast whose `_id` is absent from the
cache does **not** insert the record — on an empty cache the event leaves
the cache empty, so the claimed insert-if-absent behaviour fails. -/
theorem updated_no_insert_counterexample :
    normalizeTask exTask ∉ (handleTaskUpdated exEmptyState exTask).tasks := by
  decide

/-- C4 amended.  Handling of an `updated` broadcast: if a cached entry with
the record's `_id` exists, the first such entry is overwritten with the
normalized record (last-write-wins keyed by id); if no entry with that `_id`
exists the event is ignored and the state is unchanged — no insertion
happens. -/
theorem updated_merge_if_present (s : ManagerState) (p : RawTask) :
    ((∀ t ∈ s.tasks, (t._id == p._id) = false) →
        handleTaskUpdated s p = s) ∧
      (∀ i, s.tasks.findIdx? (fun t => t._id == p._id) = some i →
        (handleTaskUpdated s p).tasks = s.tasks.set i (normalizeTask p)) := by
  constructor
  · intro habs
    have hnone : s.tasks.findIdx? (fun t => t._id == p._id) = none :=
      List.findIdx?_eq_none_iff.mpr habs
    simp [handleTaskUpdated, hnone]
  · intro i hi
    simp [handleTaskUpdated, hi]

/-- Witness for `updated_merge_if_present`: the absent case on an empty
cache and the present case on a singleton cache. -/
theorem updated_merge_if_present_witness :
    handleTaskUpdated exEmptyState exTask = exEmptyState ∧
      (handleTaskUpdated exStateWithTask exTask).tasks =
        exStateWithTask.tasks.set 0 (normalizeTask exTask) := by
  constructor
  · exact (updated_merge_if_present exEmptyState exTask).1 (by decide)
  · exact (updated_merge_if_present exStateWithTask exTask).2 0 (by decide)

/-- C8.  Idempotent merge: for every cache state and every `updated{record}`
event whose record carries an `_id` (every record stored by the server
does), applying the event twice yields the same state as applying it
once. -/
theorem updated_merge_idempotent (s : ManagerState) (p : RawTask)
    (hid : truthyStr p._id = true) :
    handleTaskUpdated (handleTaskUpdated s p) p = handleTaskUpdated s p := by
  have hnid : (normalizeTask p)._id = p._id := by
    simp [normalizeTask, jsOr, hid]
  cases h : s.tasks.findIdx? (fun t => t._id == p._id) with
  | none =>
    simp [handleTaskUpdated, h]
  | some i =>
    have hpred : ((normalizeTask p)._id == p._id) = true := by
      simp [hnid]
    have h2 : (s.tasks.set i (normalizeTask p)).findIdx?
        (fun t => t._id == p._id) = some i :=
      findIdx?_set_of_pred h hpred
    simp [handleTaskUpdated, h, h2, List.set_set]

/-- Witness for `updated_merge_idempotent` at a concrete cache. -/
theorem updated_merge_idempotent_witness :
    handleTaskUpdated (handleTaskUpdated exStateWithTask exTask) exTask =
      handleTaskUpdated exStateWithTask exTask :=
  updated_merge_idempotent exStateWithTask exTask (by decide)

/-- C5.  Delete consistency: the cache is a map keyed by id (each id occurs
at most once), and after a `deleted{id}` event is applied the id is absent
from the cache whatever the prior state was; moreover when the removed task
was the selected one, the selection is cleared. -/
theorem deleted_id_absent (s : ManagerState) (id : String)
    (hc : s.tasks.countP (fun t => t._id == some id) ≤ 1) :
    (∀ t ∈ (handleTaskDeleted s id).tasks, ¬(t._id = some id)) ∧
      (∀ sel, s.selectedTask = some sel → sel._id = some id →
        (∃ t ∈ s.tasks, t._id = some id) →
        (handleTaskDeleted s id).selectedTask = none) := by
  constructor
  · cases h : s.tasks.findIdx? (fun t => t._id == some id) with
    | none =>
      intro t ht
      simp only [handleTaskDeleted, h] at ht
      have hall := List.findIdx?_eq_none_iff.mp h
      simpa using hall t ht
    | some i =>
      intro t ht
      simp only [handleTaskDeleted, h] at ht
      simpa using not_pred_of_mem_eraseIdx_findIdx hc h t ht
  · intro sel hsel hid hex
    obtain ⟨t0, ht0, hp0⟩ := hex
    cases h : s.tasks.findIdx? (fun t => t._id == some id) with
    | none =>
      have hall := List.findIdx?_eq_none_iff.mp h
      have := hall t0 ht0
      simp [hp0] at this
    | some i =>
      simp [handleTaskDeleted, h, hsel, hid]

/-- Witness for `deleted_id_absent`: deleting the only cached task, which is
also selected, clears the selection (and the resulting cache is empty). -/
theorem deleted_id_absent_witness :
    (handleTaskDeleted exStateWithTask "a1").selectedTask = none ∧
      (handleTaskDeleted exStateWithTask "a1").tasks = [] := by
  have h := deleted_id_absent exStateWithTask "a1" (by decide)
  exact ⟨h.2 (normalizeTask exTask) rfl (by decide) (by decide), by decide⟩

/-- C6.  Reconnection backoff: below the cap of 5 attempts, a failure
schedules the next attempt after `reconnectDelay × attemptCount`
milliseconds with the counter incremented (attemptCount starting at 1);
at the cap nothing more is scheduled; a successful `onopen` resets the
counter; and concretely, starting from a fresh service, the third
consecutive failure schedules the 4th connection attempt exactly
`3 × 1000` ms later. -/
theorem reconnect_backoff (s : WebSocketService)
    (hmax : s.maxReconnectAttempts = 5) (hdelay : s.reconnectDelay = 1000) :
    (s.reconnectAttempts < 5 →
      (attemptReconnect s).1 = some (1000 * (s.reconnectAttempts + 1)) ∧
        (attemptReconnect s).2.reconnectAttempts = s.reconnectAttempts + 1) ∧
      (5 ≤ s.reconnectAttempts → attemptReconnect s = (none, s)) ∧
      (wsOnOpen s).reconnectAttempts = 0 ∧
      (wsOnClose (wsOnClose (wsOnClose WebSocketService.init).2).2).1 =
        some 3000 := by
  refine ⟨?_, ?_, rfl, by decide⟩
  · intro h
    simp [attemptReconnect, hdelay, hmax, h]
  · intro h
    simp [attemptReconnect, hmax, Nat.not_lt.mpr h]

/-- Witness for `reconnect_backoff` at the freshly constructed service. -/
theorem reconnect_backoff_witness :
    (attemptReconnect WebSocketService.init).1 = some 1000 ∧
      (wsOnOpen WebSocketService.init).reconnectAttempts = 0 := by
  have h := reconnect_backoff WebSocketService.init rfl rfl
  exact ⟨((h.1 (by decide)).1.trans (by decide)), h.2.2.1⟩

/-- C9.  Zoom and offset controls: zoom-in multiplies `zoomLevel` by 1.5
and clamps above at 5, zoom-out divides by 1.5 and clamps below at 0.2; for
a current zoom inside `[0.2, 5]` both results stay inside `[0.2, 5]`; and
the jump-to-now command resets `timelineOffset` to 0. -/
theorem zoom_offset_controls (s : ManagerState) :
    (zoomIn s).zoomLevel = min (s.zoomLevel * 1.5) 5 ∧
      (zoomOut s).zoomLevel = max (s.zoomLevel / 1.5) 0.2 ∧
      (0.2 ≤ s.zoomLevel → s.zoomLevel ≤ 5 →
        0.2 ≤ (zoomIn s).zoomLevel ∧ (zoomIn s).zoomLevel ≤ 5 ∧
          0.2 ≤ (zoomOut s).zoomLevel ∧ (zoomOut s).zoomLevel ≤ 5) ∧
      (jumpToCurrentTime s).timelineOffset = 0 := by
  refine ⟨rfl, rfl, ?_, rfl⟩
  intro h1 h2
  refine ⟨?_, ?_, ?_, ?_⟩
  · refine le_min ?_ (by norm_num)
    nlinarith
  · exact min_le_right _ _
  · exact le_max_right _ _
  · refine max_le ?_ (by norm_num)
    rw [div_le_iff₀ (by norm_num : (0:ℚ) < 1.5)]
    nlinarith

/-- Witness for `zoom_offset_controls` at the default view state. -/
theorem zoom_offset_controls_witness :
    (jumpToCurrentTime exEmptyState).timelineOffset = 0 ∧
      0.2 ≤ (zoomIn exEmptyState).zoomLevel := by
  have h := zoom_offset_controls exEmptyState
  exact ⟨h.2.2.2,
    (h.2.2.1 (by norm_num [exEmptyState]) (by norm_num [exEmptyState])).1⟩

/-- C3 counterexample: `taskSchema` (server.js) imposes no minimum on
`duration`, so the create `{title:"X", startTime: now, duration: 10}` is
saved and answered `201` instead of signalling a `ValidationError` on
`duration` as the claim states. -/
theorem create_duration10_accepted :
    validateCreate exBodyDur10 "i1" = CreateResult.ok exRecDur10 ∧
      postTasks exBodyDur10 "i1" =
        (201, some exRecDur10, [Broadcast.created exRecDur10]) := by
  exact ⟨rfl, rfl⟩

/-- C3 amended.  Validation boundary of create: at the Store Gateway
(`taskSchema` in server.js) a missing or empty `title` signals a
`ValidationError` on `title`, but there is no minimum on `duration`:
duration 10 (indeed any supplied duration) is accepted, and duration 15
succeeds as well.  The 15-minute minimum is enforced only client-side, in
`TimelineTaskManager.saveTask`, which rejects a duration below 15 before
any request is issued and accepts duration 15. -/
theorem create_validation_boundary :
    (∀ body newId, (body.title = some "" ∨ body.title = none) →
        validateCreate body newId = CreateResult.validationError "title") ∧
      validateCreate exBodyDur10 "i1" = CreateResult.ok exRecDur10 ∧
      validateCreate { exBodyDur10 with duration := some 15 } "i2" =
        CreateResult.ok exRecDur15 ∧
      (∀ title stv (d : ℚ), title ≠ "" → stv = true → d < 15 →
        saveTaskValidate title stv (some d) = SaveCheck.errDuration) ∧
      saveTaskValidate "X" true (some 15) = SaveCheck.ok := by
  refine ⟨?_, rfl, rfl, ?_, rfl⟩
  · intro body newId h
    rcases h with h | h <;> simp [validateCreate, h]
  · intro title stv d htitle hstv hd
    subst hstv
    simp [saveTaskValidate, htitle, hd]

/-- Witness for `create_validation_boundary`: empty title rejected at the
gateway; client-side validation rejects duration 10. -/
theorem create_validation_boundary_witness :
    validateCreate { exBodyDur10 with title := some "" } "i1" =
        CreateResult.validationError "title" ∧
      saveTaskValidate "X" true (some 10) = SaveCheck.errDuration := by
  have h := create_validation_boundary
  exact ⟨h.1 { exBodyDur10 with title := some "" } "i1" (Or.inl rfl),
    h.2.2.2.1 "X" true 10 (by decide) rfl (by norm_num)⟩

/-- C7.  Broadcast side effect: a successful create publishes exactly one
`task:created` carrying the saved record with a truthy client `tempId`
echoed back unchanged, and answers `201`; a successful update publishes
exactly one `task:updated` carrying the updated record; a successful delete
publishes exactly one `task:deleted` carrying the id only; a validation
failure or `NotFound` publishes nothing. -/
theorem broadcast_per_mutation :
    (∀ body newId task,
        validateCreate { body with tempId := none } newId =
          CreateResult.ok task →
        (postTasks body newId).1 = 201 ∧
          (postTasks body newId).2.2 =
            [Broadcast.created
              (if truthyStr body.tempId then
                { task with tempId := body.tempId }
              else task)]) ∧
      (∀ body newId f,
        validateCreate { body with tempId := none } newId =
          CreateResult.validationError f →
        postTasks body newId = (400, none, [])) ∧
      (∀ db id b, db.find? (fun t => t._id == some id) = none →
        putTasks db id b = (404, db, [])) ∧
      (∀ db id b t0, db.find? (fun t => t._id == some id) = some t0 →
        validUpdated (applyUpdate t0 b) = true →
        (putTasks db id b).1 = 200 ∧
          (putTasks db id b).2.2 = [Broadcast.updated (applyUpdate t0 b)]) ∧
      (∀ db id b t0, db.find? (fun t => t._id == some id) = some t0 →
        validUpdated (applyUpdate t0 b) = false →
        putTasks db id b = (400, db, [])) ∧
      (∀ db id, db.find? (fun t => t._id == some id) = none →
        deleteTasks db id = (404, db, [])) ∧
      (∀ db id t0, db.find? (fun t => t._id == some id) = some t0 →
        (deleteTasks db id).1 = 200 ∧
          (deleteTasks db id).2.2 = [Broadcast.deleted id]) := by
  refine ⟨?_, ?_, ?_, ?_, ?_, ?_, ?_⟩
  · intro body newId task h
    simp [postTasks, h]
  · intro body newId f h
    simp [postTasks, h]
  · intro db id b h
    simp [putTasks, h]
  · intro db id b t0 h hv
    simp [putTasks, h, hv]
  · intro db id b t0 h hv
    simp [putTasks, h, hv]
  · intro db id h
    simp [deleteTasks, h]
  · intro db id t0 h
    simp [deleteTasks, h]

/-- Witness for `broadcast_per_mutation`: a concrete create with a `tempId`
echo, a concrete delete, and a concrete not-found update. -/
theorem broadcast_per_mutation_witness :
    (postTasks exBodyDur15 "i2").2.2 =
        [Broadcast.created { exRecDur15 with tempId := some "temp-7" }] ∧
      (deleteTasks [exRecDur15] "i2").2.2 = [Broadcast.deleted "i2"] ∧
      putTasks [] "i9" exUpdateBody = (404, [], []) := by
  have h := broadcast_per_mutation
  exact ⟨(h.1 exBodyDur15 "i2" exRecDur15 rfl).2.trans rfl,
    (h.2.2.2.2.2.2 [exRecDur15] "i2" exRecDur15 rfl).2,
    h.2.2.1 [] "i9" exUpdateBody rfl⟩

theorem cacheInv_handleTaskCreated {s : ManagerState}
    (hs : ∀ t ∈ s.tasks, normalizedEntry t) {p : RawTask} (hp : hasId p) :
    ∀ t ∈ (handleTaskCreated s p).tasks, normalizedEntry t := by
  cases h : s.tasks.findIdx? (fun t => t._id == p._id) with
  | none =>
    intro t ht
    simp only [handleTaskCreated, h, List.mem_append,
      List.mem_singleton] at ht
    rcases ht with ht | rfl
    · exact hs t ht
    · exact normalizedEntry_normalizeTask hp
  | some i =>
    intro t ht
    simp only [handleTaskCreated, h] at ht
    exact hs t ht

theorem cacheInv_handleTaskUpdated {s : ManagerState}
    (hs : ∀ t ∈ s.tasks, normalizedEntry t) {p : RawTask} (hp : hasId p) :
    ∀ t ∈ (handleTaskUpdated s p).tasks, normalizedEntry t := by
  cases h : s.tasks.findIdx? (fun t => t._id == p._id) with
  | none =>
    intro t ht
    simp only [handleTaskUpdated, h] at ht
    exact hs t ht
  | some i =>
    intro t ht
    simp only [handleTaskUpdated, h] at ht
    rcases List.mem_or_eq_of_mem_set ht with ht' | rfl
    · exact hs t ht'
    · exact normalizedEntry_normalizeTask hp

theorem cacheInv_handleTaskDeleted {s : ManagerState}
    (hs : ∀ t ∈ s.tasks, normalizedEntry t) (id : String) :
    ∀ t ∈ (handleTaskDeleted s id).tasks, normalizedEntry t := by
  cases h : s.tasks.findIdx? (fun t => t._id == some id) with
  | none =>
    intro t ht
    simp only [handleTaskDeleted, h] at ht
    exact hs t ht
  | some i =>
    intro t ht
    simp only [handleTaskDeleted, h] at ht
    exact hs t (List.eraseIdx_subset _ _ ht)

/-- C10.  Cache normalization invariant: starting from a cache whose entries
are all normalized, every cache-mutating operation of the client — initial
load, the create / update / delete broadcast handlers (directly or through
the websocket dispatcher), and both branches of `saveTaskToAPI` — yields a
cache whose entries are all normalized: `_id` exists, `id` equals `_id`,
and `startTime` is a `Date` value (`duration` is numeric by the `ℚ` type of
the field), provided every record delivered by the server carries an
identifier. -/
theorem cache_normalization_invariant (s : ManagerState)
    (hs : ∀ t ∈ s.tasks, normalizedEntry t) :
    (∀ fetched, (∀ p ∈ fetched, hasId p) →
        ∀ t ∈ (loadTasksFromAPI s fetched).tasks, normalizedEntry t) ∧
      (∀ p, hasId p →
        ∀ t ∈ (handleTaskCreated s p).tasks, normalizedEntry t) ∧
      (∀ p, hasId p →
        ∀ t ∈ (handleTaskUpdated s p).tasks, normalizedEntry t) ∧
      (∀ id, ∀ t ∈ (handleTaskDeleted s id).tasks, normalizedEntry t) ∧
      (∀ p, hasId p →
        ∀ t ∈ (saveTaskToAPICreate s p).tasks, normalizedEntry t) ∧
      (∀ eid p, hasId p →
        ∀ t ∈ (saveTaskToAPIUpdate s eid p).tasks, normalizedEntry t) ∧
      (∀ m, wsRecordsHaveId m →
        ∀ t ∈ (handleWebSocketMessage s m).tasks, normalizedEntry t) := by
  refine ⟨?_, fun p hp => cacheInv_handleTaskCreated hs hp,
    fun p hp => cacheInv_handleTaskUpdated hs hp,
    cacheInv_handleTaskDeleted hs, ?_, ?_, ?_⟩
  · intro fetched hf t ht
    simp only [loadTasksFromAPI, List.mem_map] at ht
    obtain ⟨p, hp, rfl⟩ := ht
    exact normalizedEntry_normalizeTask (hf p hp)
  · intro p hp
    cases h : s.tasks.find? (fun t => t._id == p._id) with
    | none =>
      intro t ht
      simp only [saveTaskToAPICreate, h, List.mem_append,
        List.mem_singleton] at ht
      rcases ht with ht | rfl
      · exact hs t ht
      · exact normalizedEntry_normalizeTask hp
    | some t0 =>
      intro t ht
      simp only [saveTaskToAPICreate, h] at ht
      exact hs t ht
  · intro eid p hp
    cases h : s.tasks.findIdx? (fun t => t._id == eid) with
    | none =>
      intro t ht
      simp only [saveTaskToAPIUpdate, h] at ht
      exact hs t ht
    | some i =>
      intro t ht
      simp only [saveTaskToAPIUpdate, h] at ht
      rcases List.mem_or_eq_of_mem_set ht with ht' | rfl
      · exact hs t ht'
      · exact normalizedEntry_normalizeTask hp
  · intro m hm
    cases m with
    | taskCreated p =>
      simp only [handleWebSocketMessage]
      split
      · exact hs
      · exact cacheInv_handleTaskCreated hs hm
    | taskUpdated p => exact cacheInv_handleTaskUpdated hs hm
    | taskDeleted id => exact cacheInv_handleTaskDeleted hs id
    | timeUpdate t => exact hs
    | timelineSynced => exact hs

/-- Witness for `cache_normalization_invariant`: the concrete entry that
inserting a server record into an empty cache produces is normalized. -/
theorem cache_normalization_invariant_witness :
    normalizedEntry (normalizeTask exTask) := by
  have h := cache_normalization_invariant exEmptyState (by simp [exEmptyState])
  exact h.2.1 exTask (Or.inl (by decide)) (normalizeTask exTask) (by decide)

end Timeline
